import Mathlib

/-!
Verification development for the `ecoli-code` repository.

The file shallowly embeds the parts of the source that the claims touch:

* `src/electrochemical_cofactor_model.py` — the `ElectrochemicalCofactorModel`
  class: Nernst potential, Butler–Volmer kinetics, mass-transport limiting,
  the enhancement model and the applied-potential sweep.  Python floats are
  modelled as real numbers; a dictionary lookup that can raise `KeyError`
  is modelled as an `Option`-valued lookup.
* `src/fba_optimizer.py` and `src/cell_free_simulator.py` — the result
  derivation (yields), knockout screening and demand-reaction addition.
  The external LP solver (cobra) is out of scope per the spec, so solver
  outcomes are parameters of the embedded functions; values appearing in
  those results are modelled as rationals so the embeddings stay executable.
-/

/-! ## Electrochemical constants (`ElectrochemicalCofactorModel.__init__`) -/

noncomputable section

/-- Faraday constant, C/mol (`self.faraday_constant`). -/
def faraday_constant : ℝ := 96485

/-- Gas constant, J/(mol·K) (`self.gas_constant`). -/
def gas_constant : ℝ := 8.314

/-- Temperature, K (`self.temperature`). -/
def temperature : ℝ := 298.15

/-- Exchange current density, A/cm² (`electrochemical_params`). -/
def exchange_current_density : ℝ := 1e-4

/-- Electrode area, cm² (`electrochemical_params`). -/
def electrode_area : ℝ := 10.0

/-- Mass transport coefficient, cm/s (`electrochemical_params`). -/
def mass_transport_coefficient : ℝ := 1e-3

/-- Transfer coefficient (`electrochemical_params['alpha']`). -/
def alpha : ℝ := 0.5

/-- The redox-potential catalog `self.redox_potentials`.  A Python dict
lookup raises `KeyError` on a missing key, so the lookup is `Option`-valued:
`none` models the raised `KeyError`. -/
def redox_potentials (pair : String) : Option ℝ :=
  if pair = "NAD+/NADH" then some (-0.32)
  else if pair = "NADP+/NADPH" then some (-0.32)
  else if pair = "FAD/FADH2" then some (-0.22)
  else if pair = "FMN/FMNH2" then some (-0.22)
  else if pair = "O2/H2O" then some 0.82
  else if pair = "H+/H2" then some 0.00
  else none

/-- The six keys of `self.redox_potentials`. -/
def catalogued_pairs : List String :=
  ["NAD+/NADH", "NADP+/NADPH", "FAD/FADH2", "FMN/FMNH2", "O2/H2O", "H+/H2"]

/-! ## `calculate_nernst_potential` (lines 73–99) -/

/-- Body of `calculate_nernst_potential` once the standard potential has been
looked up: the Nernst correction is applied only when both concentrations are
strictly positive, otherwise `E_standard` is returned unchanged. -/
def nernstAux (E_standard oxidized_conc reduced_conc : ℝ) : ℝ :=
  if 0 < oxidized_conc ∧ 0 < reduced_conc then
    E_standard - gas_constant * temperature / (2 * faraday_constant) *
      Real.log (reduced_conc / oxidized_conc)
  else E_standard

/-- `calculate_nernst_potential`: the catalog lookup happens first (raising
`KeyError`, i.e. `none`, for an unknown pair), then the guarded Nernst
formula is evaluated. -/
def calculate_nernst_potential (cofactor_pair : String)
    (oxidized_conc reduced_conc : ℝ) : Option ℝ :=
  (redox_potentials cofactor_pair).map
    (fun E => nernstAux E oxidized_conc reduced_conc)

/-! ## `calculate_electrochemical_rate` (lines 101–153) -/

/-- Butler–Volmer current density as a function of the overpotential
(lines 128–137): exponential high-overpotential branches when
`|overpotential| > 0.1`, linear regime otherwise. -/
def butler_volmer_current_density (overpotential : ℝ) : ℝ :=
  if 0.1 < |overpotential| then
    if 0 < overpotential then
      exchange_current_density *
        Real.exp (alpha * faraday_constant * overpotential /
          (gas_constant * temperature))
    else
      -(exchange_current_density *
        Real.exp (-(alpha * faraday_constant * |overpotential|) /
          (gas_constant * temperature)))
  else
    exchange_current_density * faraday_constant * overpotential /
      (gas_constant * temperature)

/-- Kinetic (Butler–Volmer) reaction rate in mmol/s (lines 139–143):
total current is current density times area, converted by Faraday's law
with 2 electrons per cofactor. -/
def kinetic_rate (E_standard applied_potential oxidized_conc reduced_conc : ℝ) : ℝ :=
  let overpotential :=
    applied_potential - nernstAux E_standard oxidized_conc reduced_conc
  |butler_volmer_current_density overpotential * electrode_area| * 1000 /
    (2 * faraday_constant)

/-- Mass-transport ceiling in mmol/s (lines 145–148). -/
def mass_transport_rate (oxidized_conc : ℝ) : ℝ :=
  mass_transport_coefficient * electrode_area * oxidized_conc * 1e-6 * 1000

/-- Rate once the standard potential is known: the slower of kinetics and
mass transport (line 151). -/
def rateAux (E_standard applied_potential oxidized_conc reduced_conc : ℝ) : ℝ :=
  min (kinetic_rate E_standard applied_potential oxidized_conc reduced_conc)
    (mass_transport_rate oxidized_conc)

/-- `calculate_electrochemical_rate`: looks up the pair (propagating the
`KeyError` of `calculate_nernst_potential` as `none`) and otherwise returns
the mass-transport-limited Butler–Volmer rate. -/
def calculate_electrochemical_rate (applied_potential : ℝ) (cofactor_pair : String)
    (oxidized_conc reduced_conc : ℝ) : Option ℝ :=
  (redox_potentials cofactor_pair).map
    (fun E => rateAux E applied_potential oxidized_conc reduced_conc)

end

/-! ## Helper lemmas for the electrochemical model -/

lemma redox_potentials_eq_none (pair : String) (h : pair ∉ catalogued_pairs) :
    redox_potentials pair = none := by
  simp only [catalogued_pairs, List.mem_cons, List.mem_singleton, not_or] at h
  obtain ⟨h1, h2, h3, h4, h5, h6⟩ := h
  simp [redox_potentials, h1, h2, h3, h4, h5, h6]

lemma kinetic_rate_nonneg (E V cox cred : ℝ) : 0 ≤ kinetic_rate E V cox cred := by
  unfold kinetic_rate faraday_constant
  positivity

lemma mass_transport_rate_zero : mass_transport_rate 0 = 0 := by
  simp [mass_transport_rate]

/-- C8: for a catalogued pair and equal positive concentrations the Nernst
potential collapses to the standard potential (the log term vanishes). -/
theorem nernst_symmetry (pair : String) (E c : ℝ)
    (hE : redox_potentials pair = some E) (hc : 0 < c) :
    calculate_nernst_potential pair c c = some E := by
  have hdiv : c / c = 1 := div_self (ne_of_gt hc)
  simp [calculate_nernst_potential, hE, nernstAux, hc, hdiv, Real.log_one]

/-- Witness for C8 at the NAD pair with concentration 1. -/
theorem nernst_symmetry_witness :
    calculate_nernst_potential "NAD+/NADH" 1 1 = some (-0.32) :=
  nernst_symmetry "NAD+/NADH" (-0.32) 1 (by norm_num [redox_potentials]) one_pos

/-- C9: whenever either concentration is nonpositive (zero or negative) the
guard takes the `else` branch, so the function totalizes to the catalogued
standard potential and the logarithm is never evaluated on a nonpositive
argument. -/
theorem nernst_total_on_nonpos (pair : String) (cox cred : ℝ)
    (h : cox ≤ 0 ∨ cred ≤ 0) :
    calculate_nernst_potential pair cox cred = redox_potentials pair := by
  have hcond : ¬(0 < cox ∧ 0 < cred) := by
    rcases h with h | h
    · exact fun hc => absurd hc.1 (not_lt.mpr h)
    · exact fun hc => absurd hc.2 (not_lt.mpr h)
  cases hR : redox_potentials pair <;>
    simp [calculate_nernst_potential, hR, nernstAux, hcond]

/-- Witness for C9 at a negative oxidized concentration. -/
theorem nernst_total_on_nonpos_witness :
    calculate_nernst_potential "NAD+/NADH" (-1) 5 = redox_potentials "NAD+/NADH" :=
  nernst_total_on_nonpos "NAD+/NADH" (-1) 5 (Or.inl (by norm_num))

/-- C10: for a pair outside the six-key catalog both the Nernst potential
and the electrochemical rate propagate the lookup failure (`KeyError`),
returning no value. -/
theorem unknown_pair_keyerror (pair : String) (V cox cred : ℝ)
    (h : pair ∉ catalogued_pairs) :
    calculate_nernst_potential pair cox cred = none ∧
      calculate_electrochemical_rate V pair cox cred = none := by
  have hR := redox_potentials_eq_none pair h
  constructor
  · simp [calculate_nernst_potential, hR]
  · simp [calculate_electrochemical_rate, hR]

/-- Witness for C10 at the uncatalogued pair name ATP/ADP. -/
theorem unknown_pair_keyerror_witness :
    calculate_nernst_potential "ATP/ADP" 1 1 = none ∧
      calculate_electrochemical_rate (-0.5) "ATP/ADP" 1 1 = none :=
  unknown_pair_keyerror "ATP/ADP" (-0.5) 1 1 (by decide)

/-- C2: the returned electrochemical rate is exactly the minimum of the
Butler–Volmer kinetic rate and the mass-transport ceiling; hence it never
exceeds the ceiling, and once the kinetic rate has reached the ceiling at
some potential, no other applied potential can yield a larger returned rate. -/
theorem rate_mass_transport_limited (pair : String) (E V Valt cox cred : ℝ)
    (hE : redox_potentials pair = some E) :
    calculate_electrochemical_rate V pair cox cred =
      some (min (kinetic_rate E V cox cred) (mass_transport_rate cox)) ∧
    (∀ r, calculate_electrochemical_rate V pair cox cred = some r →
      r ≤ mass_transport_rate cox) ∧
    (mass_transport_rate cox ≤ kinetic_rate E V cox cred →
      ∀ ralt r, calculate_electrochemical_rate Valt pair cox cred = some ralt →
        calculate_electrochemical_rate V pair cox cred = some r → ralt ≤ r) := by
  refine ⟨by simp [calculate_electrochemical_rate, hE, rateAux], ?_, ?_⟩
  · intro r hr
    simp only [calculate_electrochemical_rate, hE, Option.map_some',
      Option.some.injEq, rateAux] at hr
    exact hr ▸ min_le_right _ _
  · intro hceil ralt r hralt hr
    simp only [calculate_electrochemical_rate, hE, Option.map_some',
      Option.some.injEq, rateAux] at hralt hr
    subst hralt; subst hr
    rw [min_eq_right hceil]
    exact min_le_right _ _

/-- Witness for C2 at the NADP pair with zero oxidized concentration, where
the mass-transport ceiling is zero and hence already reached. -/
theorem rate_mass_transport_limited_witness :
    calculate_electrochemical_rate (-5) "NADP+/NADPH" 0 0 =
      some (min (kinetic_rate (-0.32) (-5) 0 0) (mass_transport_rate 0)) ∧
    min (kinetic_rate (-0.32) (-5) 0 0) (mass_transport_rate 0) ≤
      mass_transport_rate 0 ∧
    min (kinetic_rate (-0.32) (-5) 0 0) (mass_transport_rate 0) ≤
      min (kinetic_rate (-0.32) (-0.32) 0 0) (mass_transport_rate 0) := by
  have hE : redox_potentials "NADP+/NADPH" = some (-0.32) := by
    norm_num [redox_potentials]
  have hceil : mass_transport_rate 0 ≤ kinetic_rate (-0.32) (-0.32) 0 0 := by
    rw [mass_transport_rate_zero]; exact kinetic_rate_nonneg _ _ _ _
  have T := rate_mass_transport_limited "NADP+/NADPH" (-0.32) (-5) (-0.32) 0 0 hE
  have Tbase := rate_mass_transport_limited "NADP+/NADPH" (-0.32) (-0.32) (-5) 0 0 hE
  exact ⟨T.1, T.2.1 _ T.1, Tbase.2.2 hceil _ _ T.1 Tbase.1⟩

/-! ## `model_enhanced_cell_free_system` (lines 155–235)

The baseline cell-free optimization (`CellFreeSimulator`, backed by the
external LP solver) is a collaborator per the spec, so the baseline result
is a parameter: its `status` string and `production_rate`. -/

/-- The slice of the baseline result dictionary the enhancement model reads. -/
structure BaselineResult where
  status : String
  production_rate : ℝ

/-- First token of the fatty-acid name, Python `fatty_acid.split('_')[0]`,
computed on the character list so that it evaluates by `decide`. -/
def firstToken (fatty_acid : String) : List Char :=
  fatty_acid.data.takeWhile (fun c => c ≠ '_')

/-- Carbon chain length parsed from the name (line 184): the last character
of the first underscore-separated token if it is a digit (its decimal
value), else 8.  The Python expression indexes `[-1]`, which raises
`IndexError` on an empty token; that case is guarded at the call site
below, so the `none` branch here is never reached under the guard. -/
def carbonLength (fatty_acid : String) : ℕ :=
  match (firstToken fatty_acid).getLast? with
  | some c => if c.isDigit then c.toNat - 48 else 8
  | none => 8

/-- NADPH regeneration rate in mmol/h (lines 191–192): the electrochemical
rate for the NADP+/NADPH pair at 0.5/0.5 mM, scaled by 3600.  The pair is
catalogued, so the `Option` lookup always succeeds and the default of
`getD` is never used. -/
noncomputable def nadph_regen_rate (applied_potential : ℝ) : ℝ :=
  ((calculate_electrochemical_rate applied_potential "NADP+/NADPH" 0.5 0.5).getD 0)
    * 3600

/-- The enhanced-results dictionary of lines 207–220 / 229–233. -/
inductive EnhancedResult where
  | enhanced (baseline_production_rate enhanced_production_rate
      enhancement_factor_actual nadph_requirement nadph_electrochemical_rate
      atp_requirement electrical_power energy_efficiency : ℝ)
      (rate_limiting_factor : String)
  | failed (error : String)

/-- `model_enhanced_cell_free_system` given the baseline result.  The
exceptions the optimal branch can raise in Python are modelled by
`Except.error`: `IndexError` from indexing the last character of an empty
name token (line 184), `ZeroDivisionError` from dividing by
`acetyl_units * 2` when the parsed carbon length is below 2 (line 195),
and `ZeroDivisionError` from `cofactor_limited_rate / production_rate`
at line 212 when the optimal baseline's production rate is 0.  A
non-optimal baseline yields the `failed` dictionary (no exception). -/
noncomputable def model_enhanced_cell_free_system (baseline : BaselineResult)
    (fatty_acid : String) (applied_potential enhancement_factor : ℝ) :
    Except String EnhancedResult :=
  if baseline.status = "optimal" then
    if firstToken fatty_acid = [] then .error "IndexError" else
    let r := baseline.production_rate
    let carbon_length := carbonLength fatty_acid
    let acetyl_units := carbon_length / 2
    if acetyl_units = 0 then .error "ZeroDivisionError" else
    if r = 0 then .error "ZeroDivisionError" else
    let nadph_requirement := r * (acetyl_units : ℝ) * 2
    let atp_requirement := r * (acetyl_units : ℝ) * 1
    let nadph_electrochemical_rate := nadph_regen_rate applied_potential
    let cofactor_limited_rate :=
      min (nadph_electrochemical_rate / ((acetyl_units * 2 : ℕ) : ℝ))
        (r * enhancement_factor)
    let electrical_power :=
      |applied_potential| * nadph_electrochemical_rate * 2 * faraday_constant / 3600
    let product_energy :=
      cofactor_limited_rate * (carbon_length : ℝ) * 12 * 1000 * 37
    let energy_efficiency :=
      if 0 < electrical_power then product_energy / electrical_power * 100 else 0
    .ok (.enhanced r cofactor_limited_rate (cofactor_limited_rate / r)
      nadph_requirement nadph_electrochemical_rate atp_requirement
      electrical_power energy_efficiency
      (if cofactor_limited_rate < r * enhancement_factor then
        "cofactor_regeneration" else "enzymatic"))
  else .ok (.failed "Baseline optimization failed")

/-- The `enhanced_production_rate` field of a successful enhancement. -/
def enhancedRate? : Except String EnhancedResult → Option ℝ
  | .ok (.enhanced _ e _ _ _ _ _ _ _) => some e
  | _ => none

/-- C3: for an optimal baseline with rate `r`, name token nonempty,
`acetyl_units = carbon_count / 2` positive and `r` nonzero (the domain on
which the Python code does not raise — a zero baseline rate makes line 212
raise `ZeroDivisionError` instead of producing a result), the enhanced
production rate is exactly
`min(nadph_regeneration_rate / (acetyl_units * 2), r * enhancement_factor)`. -/
theorem enhanced_rate_is_capped_min (baseline : BaselineResult)
    (fatty_acid : String) (applied_potential enhancement_factor : ℝ)
    (hs : baseline.status = "optimal") (ht : firstToken fatty_acid ≠ [])
    (hau : carbonLength fatty_acid / 2 ≠ 0)
    (hr0 : baseline.production_rate ≠ 0) :
    enhancedRate? (model_enhanced_cell_free_system baseline fatty_acid
        applied_potential enhancement_factor) =
      some (min (nadph_regen_rate applied_potential /
          ((carbonLength fatty_acid / 2 * 2 : ℕ) : ℝ))
        (baseline.production_rate * enhancement_factor)) := by
  simp [model_enhanced_cell_free_system, hs, ht, hau, hr0, enhancedRate?]

/-- Witness for C3: octanoic acid (carbon length 8, 4 acetyl units) with an
optimal baseline of rate 2 and cap 10. -/
theorem enhanced_rate_is_capped_min_witness :
    enhancedRate? (model_enhanced_cell_free_system ⟨"optimal", 2⟩
        "octanoic_acid" (-0.5) 10) =
      some (min (nadph_regen_rate (-0.5) /
          ((carbonLength "octanoic_acid" / 2 * 2 : ℕ) : ℝ)) (2 * 10)) :=
  enhanced_rate_is_capped_min ⟨"optimal", 2⟩ "octanoic_acid" (-0.5) 10
    rfl (by decide) (by decide) (by norm_num : (2 : ℝ) ≠ 0)

/-! ## `optimize_applied_potential` (lines 237–287) -/

/-- One row of the sweep table (the dict appended at lines 257–263). -/
structure SweepRow where
  potential : ℝ
  production_rate : ℝ
  enhancement_factor : ℝ
  energy_efficiency : ℝ
  electrical_power : ℝ

/-- The fixed sweep `np.linspace(-0.8, -0.2, 13)` (line 250). -/
noncomputable def sweepPotentials : List ℝ :=
  [-0.8, -0.75, -0.7, -0.65, -0.6, -0.55, -0.5, -0.45, -0.4, -0.35, -0.3, -0.25, -0.2]

/-- Evaluation of one sweep point (lines 253–265): the enhancement model is
invoked with cap 10; a raised exception is caught and the point skipped, and
a point whose result status is not `enhanced` is likewise not appended. -/
noncomputable def sweepRow? (baseline : BaselineResult) (fatty_acid : String)
    (potential : ℝ) : Option SweepRow :=
  match model_enhanced_cell_free_system baseline fatty_acid potential 10 with
  | .ok (.enhanced _ e ef _ _ _ pw eff _) => some ⟨potential, e, ef, eff, pw⟩
  | _ => none

/-- The collected result rows of the sweep, in sweep order. -/
noncomputable def collectRows (baseline : BaselineResult) (fatty_acid : String) :
    List SweepRow :=
  sweepPotentials.filterMap (sweepRow? baseline fatty_acid)

open Classical in
/-- The selection `results_df['Production Rate (mmol/gDW/h)'].idxmax()`
(line 271): pandas `idxmax` returns the first index attaining the maximum,
so an earlier row is kept unless a later row is strictly larger. -/
noncomputable def selectOptimal : List SweepRow → Option SweepRow
  | [] => none
  | x :: xs =>
    match selectOptimal xs with
    | none => some x
    | some b => if x.production_rate < b.production_rate then some b else some x

/-- The return value of `optimize_applied_potential`: either the optimal
conditions dictionary (lines 280–285) or the error dictionary returned at
line 287 when no sweep point produced a row. -/
inductive SweepResult where
  | success (optimal_potential optimal_production_rate optimal_enhancement : ℝ)
      (results : List SweepRow)
  | error (msg : String)

/-- `optimize_applied_potential` given the baseline result. -/
noncomputable def optimize_applied_potential (baseline : BaselineResult)
    (fatty_acid : String) : SweepResult :=
  match selectOptimal (collectRows baseline fatty_acid) with
  | some best =>
      .success best.potential best.production_rate best.enhancement_factor
        (collectRows baseline fatty_acid)
  | none => .error "No valid results obtained"

/-- The `optimal_potential` key of a successful sweep. -/
def bestPotential? : SweepResult → Option ℝ
  | .success p _ _ _ => some p
  | .error _ => none

/-- The `optimal_production_rate` key of a successful sweep. -/
def bestRate? : SweepResult → Option ℝ
  | .success _ r _ _ => some r
  | .error _ => none

/-- Whether the sweep returned the optimal-conditions dictionary. -/
def isSuccess : SweepResult → Bool
  | .success _ _ _ _ => true
  | .error _ => false

/-- The sweep table projected to (applied potential, production rate). -/
noncomputable def rowsAsPairs (baseline : BaselineResult) (fatty_acid : String) :
    List (ℝ × ℝ) :=
  (collectRows baseline fatty_acid).map (fun row => (row.potential, row.production_rate))

/-! ## Helper lemmas for the sweep -/

lemma selectOptimal_cons (x : SweepRow) (xs : List SweepRow) :
    selectOptimal (x :: xs) =
      match selectOptimal xs with
      | none => some x
      | some b =>
          if x.production_rate < b.production_rate then some b else some x := rfl

lemma selectOptimal_eq_none : ∀ {l : List SweepRow}, selectOptimal l = none → l = [] := by
  intro l h
  cases l with
  | nil => rfl
  | cons x xs =>
    rw [selectOptimal_cons] at h
    cases hsel : selectOptimal xs with
    | none =>
      rw [hsel] at h
      exact Option.noConfusion h
    | some b =>
      rw [hsel] at h
      have h' : (if x.production_rate < b.production_rate then
          some b else some x) = none := h
      by_cases hx : x.production_rate < b.production_rate
      · rw [if_pos hx] at h'; exact Option.noConfusion h'
      · rw [if_neg hx] at h'; exact Option.noConfusion h'

lemma selectOptimal_spec : ∀ (l : List SweepRow) (b : SweepRow),
    selectOptimal l = some b →
    ∃ l1 l2, l = l1 ++ b :: l2 ∧
      (∀ x ∈ l1, x.production_rate < b.production_rate) ∧
      (∀ x ∈ l2, x.production_rate ≤ b.production_rate) := by
  intro l
  induction l with
  | nil => intro b h; exact Option.noConfusion h
  | cons x xs ih =>
    intro b h
    rw [selectOptimal_cons] at h
    cases hsel : selectOptimal xs with
    | none =>
      rw [hsel] at h
      have hxb : x = b := Option.some.inj h
      have hxs : xs = [] := selectOptimal_eq_none hsel
      refine ⟨[], xs, by rw [hxb]; rfl, by simp, ?_⟩
      intro y hy; rw [hxs] at hy; exact absurd hy (by simp)
    | some c =>
      rw [hsel] at h
      have h' : (if x.production_rate < c.production_rate then
          some c else some x) = some b := h
      by_cases hx : x.production_rate < c.production_rate
      · rw [if_pos hx] at h'
        obtain ⟨m1, m2, hdec, hpre, hpost⟩ := ih c hsel
        have hbc : c = b := Option.some.inj h'
        subst hbc
        refine ⟨x :: m1, m2, by rw [hdec]; rfl, ?_, hpost⟩
        intro y hy
        rcases List.mem_cons.mp hy with hy | hy
        · exact hy ▸ hx
        · exact hpre y hy
      · rw [if_neg hx] at h'
        have hbx : x = b := Option.some.inj h'
        subst hbx
        obtain ⟨m1, m2, hdec, hpre, hpost⟩ := ih c hsel
        refine ⟨[], xs, by simp, by simp, ?_⟩
        intro y hy
        have hcx : c.production_rate ≤ x.production_rate := not_lt.mp hx
        rw [hdec] at hy
        rcases List.mem_append.mp hy with hy | hy
        · exact le_trans (le_of_lt (hpre y hy)) hcx
        · rcases List.mem_cons.mp hy with hy | hy
          · exact hy ▸ hcx
          · exact le_trans (hpost y hy) hcx

lemma selectOptimal_of_const (c : ℝ) : ∀ (l : List SweepRow),
    (∀ x ∈ l, x.production_rate = c) → selectOptimal l = l.head? := by
  intro l
  induction l with
  | nil => intro _; rfl
  | cons x xs ih =>
    intro hconst
    rw [selectOptimal_cons]
    cases hsel : selectOptimal xs with
    | none => simp
    | some b =>
      obtain ⟨m1, m2, hdec, -, -⟩ := selectOptimal_spec xs b hsel
      have hb : b.production_rate = c := hconst b (by rw [hdec]; simp)
      have hx : x.production_rate = c := hconst x (by simp)
      have hnlt : ¬ x.production_rate < b.production_rate := by
        rw [hb, hx]; exact lt_irrefl c
      simp [hnlt]

lemma mass_transport_rate_nonneg (cox : ℝ) (hcox : 0 ≤ cox) :
    0 ≤ mass_transport_rate cox := by
  unfold mass_transport_rate mass_transport_coefficient electrode_area
  nlinarith [hcox]

lemma rateAux_nonneg (E V cox cred : ℝ) (hcox : 0 ≤ cox) :
    0 ≤ rateAux E V cox cred :=
  le_min (kinetic_rate_nonneg E V cox cred) (mass_transport_rate_nonneg cox hcox)

lemma nadph_regen_rate_nonneg (V : ℝ) : 0 ≤ nadph_regen_rate V := by
  have hE : redox_potentials "NADP+/NADPH" = some (-0.32) := by
    norm_num [redox_potentials]
  unfold nadph_regen_rate calculate_electrochemical_rate
  rw [hE]
  simp only [Option.map_some', Option.getD_some]
  exact mul_nonneg (rateAux_nonneg (-0.32) V 0.5 0.5 (by norm_num)) (by norm_num)

/-! ## Concrete sweep scenarios

A tied sweep needs ties between actual rates.  Each point's rate is
`min(nadph_regen_rate(V)/8, r*10)`; the cap `r*10` binds at every grid
potential as soon as `r*10` is below the smallest electrochemical supply
term over the grid, so an optimal baseline with the tiny positive rate
`1e-9` makes all 13 points tie at `1e-8`.  (A rate-0 optimal baseline
would instead raise `ZeroDivisionError` at line 212 on every point and
the sweep would return the error dictionary.)  The lower bound on the
supply term needs a concrete lower bound on the Butler–Volmer current at
the grid overpotentials, hence the `exp`-bounding lemmas below. -/

/-- A baseline whose optimization did not reach `optimal` status. -/
def baselineFailed : BaselineResult := ⟨"infeasible", 0⟩

/-- An optimal baseline with a tiny positive production rate, making the
`r*10` enhancement cap bind at every grid potential. -/
noncomputable def baselineTiny : BaselineResult := ⟨"optimal", 1e-9⟩

lemma sweepRow?_eq (b : BaselineResult) (fa : String) (V : ℝ)
    (hs : b.status = "optimal") (ht : ¬ firstToken fa = [])
    (hau : ¬ carbonLength fa / 2 = 0) (hr0 : ¬ b.production_rate = 0) :
    ∃ row, sweepRow? b fa V = some row ∧ row.potential = V ∧
      row.production_rate =
        min (nadph_regen_rate V / ((carbonLength fa / 2 * 2 : ℕ) : ℝ))
          (b.production_rate * 10) := by
  simp only [sweepRow?, model_enhanced_cell_free_system]
  rw [if_pos hs, if_neg ht, if_neg hau, if_neg hr0]
  exact ⟨_, rfl, rfl, rfl⟩

lemma exp_ten_le : Real.exp 10 ≤ 59049 := by
  have h1 : Real.exp 10 = Real.exp 1 ^ (10 : ℕ) := by
    rw [← Real.exp_nat_mul]
    norm_num
  rw [h1]
  have h2 : Real.exp 1 ≤ 3 := le_trans Real.exp_one_lt_d9.le (by norm_num)
  calc Real.exp 1 ^ (10 : ℕ) ≤ (3 : ℝ) ^ (10 : ℕ) :=
      pow_le_pow_left₀ (Real.exp_pos 1).le h2 10
    _ = 59049 := by norm_num

/-- Uniform lower bound on the Butler–Volmer current magnitude over the
overpotential range the sweep grid produces: the cathodic exponent stays
above -10, the anodic exponential is at least 1, and the linear regime is
bounded below by its value at 0.02 V. -/
lemma bv_abs_lower (η : ℝ) (h1 : 0.02 ≤ |η|) (h2 : |η| ≤ 0.48) :
    (1e-4 : ℝ) / 59049 ≤ |butler_volmer_current_density η| := by
  unfold butler_volmer_current_density exchange_current_density alpha
    faraday_constant gas_constant temperature
  by_cases hc : (0.1 : ℝ) < |η|
  · rw [if_pos hc]
    by_cases hp : (0 : ℝ) < η
    · rw [if_pos hp]
      have h1e : (1 : ℝ) ≤ Real.exp (0.5 * 96485 * η / (8.314 * 298.15)) := by
        have hx : (0 : ℝ) ≤ 0.5 * 96485 * η / (8.314 * 298.15) := by positivity
        linarith [Real.add_one_le_exp (0.5 * 96485 * η / (8.314 * 298.15))]
      rw [abs_of_pos (by positivity)]
      linarith [h1e]
    · rw [if_neg hp]
      rw [abs_neg, abs_of_pos (by positivity)]
      have hs10 : 0.5 * 96485 * |η| / (8.314 * 298.15) ≤ 10 := by
        rw [div_le_iff₀ (by norm_num : (0 : ℝ) < 8.314 * 298.15)]
        linarith [h2]
      have hkey : (1 : ℝ) / 59049 ≤
          Real.exp (-(0.5 * 96485 * |η|) / (8.314 * 298.15)) := by
        have heq : -(0.5 * 96485 * |η|) / (8.314 * 298.15) =
            -(0.5 * 96485 * |η| / (8.314 * 298.15)) := by ring
        rw [heq, Real.exp_neg, inv_eq_one_div]
        exact one_div_le_one_div_of_le (Real.exp_pos _)
          (le_trans (Real.exp_le_exp.mpr hs10) exp_ten_le)
      linarith [hkey]
  · rw [if_neg hc]
    rw [abs_div, abs_mul, abs_mul,
      abs_of_pos (by norm_num : (0 : ℝ) < 1e-4),
      abs_of_pos (by norm_num : (0 : ℝ) < (96485 : ℝ)),
      abs_of_pos (by norm_num : (0 : ℝ) < 8.314 * 298.15)]
    rw [div_le_div_iff₀ (by norm_num : (0 : ℝ) < 59049)
      (by norm_num : (0 : ℝ) < 8.314 * 298.15)]
    linarith [h1]

lemma kinetic_rate_lower (V : ℝ) (h1 : 0.02 ≤ |V + 0.32|)
    (h2 : |V + 0.32| ≤ 0.48) :
    (2.3e-11 : ℝ) ≤ kinetic_rate (-0.32) V 0.5 0.5 := by
  have hbv := bv_abs_lower (V + 0.32) h1 h2
  have hhalf : nernstAux (-0.32) 0.5 0.5 = -0.32 := by
    unfold nernstAux
    rw [if_pos ⟨by norm_num, by norm_num⟩,
      show (0.5 : ℝ) / 0.5 = 1 from by norm_num, Real.log_one, mul_zero, sub_zero]
  simp only [kinetic_rate]
  rw [hhalf, sub_neg_eq_add, abs_mul,
    abs_of_pos (by norm_num [electrode_area] : (0 : ℝ) < electrode_area)]
  unfold electrode_area faraday_constant
  linarith [hbv]

lemma nadph_regen_rate_lower (V : ℝ) (h1 : 0.02 ≤ |V + 0.32|)
    (h2 : |V + 0.32| ≤ 0.48) :
    (8e-8 : ℝ) ≤ nadph_regen_rate V := by
  have hE : redox_potentials "NADP+/NADPH" = some (-0.32) := by
    norm_num [redox_potentials]
  unfold nadph_regen_rate calculate_electrochemical_rate
  rw [hE]
  simp only [Option.map_some', Option.getD_some]
  unfold rateAux
  have hmass : (2.3e-11 : ℝ) ≤ mass_transport_rate 0.5 := by
    unfold mass_transport_rate mass_transport_coefficient electrode_area
    norm_num
  have hmin := le_min (kinetic_rate_lower V h1 h2) hmass
  linarith [hmin]

lemma sweep_eta_bounds :
    ∀ V ∈ sweepPotentials, 0.02 ≤ |V + 0.32| ∧ |V + 0.32| ≤ 0.48 := by
  intro V hV
  simp only [sweepPotentials, List.mem_cons, List.not_mem_nil, or_false] at hV
  rcases hV with rfl | rfl | rfl | rfl | rfl | rfl | rfl | rfl | rfl | rfl |
    rfl | rfl | rfl <;>
    exact ⟨by rw [le_abs]; norm_num, by rw [abs_le]; norm_num⟩

lemma sweepRow?_tiny (V : ℝ) (h1 : 0.02 ≤ |V + 0.32|) (h2 : |V + 0.32| ≤ 0.48) :
    ∃ row, sweepRow? baselineTiny "octanoic_acid" V = some row ∧
      row.potential = V ∧ row.production_rate = 1e-8 := by
  obtain ⟨row, ha, hb, hc⟩ :=
    sweepRow?_eq baselineTiny "octanoic_acid" V rfl (by decide) (by decide)
      (by norm_num : ¬ (1e-9 : ℝ) = 0)
  refine ⟨row, ha, hb, ?_⟩
  rw [hc]
  show min (nadph_regen_rate V /
      ((carbonLength "octanoic_acid" / 2 * 2 : ℕ) : ℝ)) ((1e-9 : ℝ) * 10) = 1e-8
  have h8 : (carbonLength "octanoic_acid" / 2 * 2 : ℕ) = 8 := by decide
  rw [h8, show ((8 : ℕ) : ℝ) = 8 from by norm_num]
  have hge : (1e-9 : ℝ) * 10 ≤ nadph_regen_rate V / 8 := by
    rw [le_div_iff₀ (by norm_num : (0 : ℝ) < 8)]
    linarith [nadph_regen_rate_lower V h1 h2]
  rw [min_eq_right hge]
  norm_num

lemma collectRows_tiny_rate :
    ∀ row ∈ collectRows baselineTiny "octanoic_acid",
      row.production_rate = 1e-8 := by
  intro row hrow
  obtain ⟨V, hV, hsome⟩ := List.mem_filterMap.mp hrow
  obtain ⟨hb1, hb2⟩ := sweep_eta_bounds V hV
  obtain ⟨row2, h1, -, h3⟩ := sweepRow?_tiny V hb1 hb2
  rw [h1] at hsome
  exact (Option.some.inj hsome) ▸ h3

lemma collectRows_tiny_cons :
    ∃ row rest, collectRows baselineTiny "octanoic_acid" = row :: rest ∧
      row.potential = -0.8 ∧ row.production_rate = 1e-8 := by
  obtain ⟨hb1, hb2⟩ := sweep_eta_bounds (-0.8) (by norm_num [sweepPotentials])
  obtain ⟨row, h1, h2, h3⟩ := sweepRow?_tiny (-0.8) hb1 hb2
  refine ⟨row, List.filterMap (sweepRow? baselineTiny "octanoic_acid")
    [-0.75, -0.7, -0.65, -0.6, -0.55, -0.5, -0.45, -0.4, -0.35, -0.3, -0.25, -0.2],
    ?_, h2, h3⟩
  unfold collectRows sweepPotentials
  exact List.filterMap_cons_some h1

lemma optimize_tiny_proj :
    bestPotential? (optimize_applied_potential baselineTiny "octanoic_acid") =
      some (-0.8) ∧
    bestRate? (optimize_applied_potential baselineTiny "octanoic_acid") =
      some 1e-8 := by
  obtain ⟨row, rest, hcons, hpot, hrate⟩ := collectRows_tiny_cons
  have hsel : selectOptimal (collectRows baselineTiny "octanoic_acid") =
      some row := by
    rw [selectOptimal_of_const 1e-8 _ collectRows_tiny_rate, hcons]
    rfl
  unfold optimize_applied_potential
  rw [hsel]
  exact ⟨by rw [bestPotential?, hpot], by rw [bestRate?, hrate]⟩

lemma collectRows_failed :
    collectRows baselineFailed "octanoic_acid" = [] := by
  unfold collectRows
  rw [List.filterMap_eq_nil_iff]
  intro V _
  rfl

lemma find?_first {α : Type} (p : α → Bool) :
    ∀ (l1 : List α) (x : α) (l2 : List α), (∀ y ∈ l1, p y = false) →
      p x = true → (l1 ++ x :: l2).find? p = some x := by
  intro l1
  induction l1 with
  | nil =>
    intro x l2 _ hx
    rw [List.nil_append]
    exact List.find?_cons_of_pos _ hx
  | cons a l ih =>
    intro x l2 hneg hx
    rw [List.cons_append,
      List.find?_cons_of_neg _ (by rw [hneg a (by simp)]; exact Bool.false_ne_true)]
    exact ih x l2 (fun y hy => hneg y (by simp [hy])) hx

/-- C1 (amended): whenever the potential sweep succeeds, the returned
potential/rate pair is a sweep row achieving the maximum production rate
over all successfully evaluated points, and it is the FIRST such row in
sweep order (pandas `idxmax` semantics).  Since the sweep runs from -0.8 V
up to -0.2 V, a tie is resolved toward the most negative — i.e.
highest-magnitude — applied potential, not the lowest-magnitude one. -/
theorem sweep_selects_first_max (b : BaselineResult) (fa : String) (p r : ℝ)
    (hp : bestPotential? (optimize_applied_potential b fa) = some p)
    (hr : bestRate? (optimize_applied_potential b fa) = some r) :
    (∀ q ∈ rowsAsPairs b fa, q.2 ≤ r) ∧
      (rowsAsPairs b fa).find? (fun q => decide (r ≤ q.2)) = some (p, r) := by
  unfold optimize_applied_potential at hp hr
  cases hsel : selectOptimal (collectRows b fa) with
  | none =>
    rw [hsel] at hp
    exact Option.noConfusion hp
  | some best =>
    rw [hsel] at hp hr
    have hp' : best.potential = p := Option.some.inj hp
    have hr' : best.production_rate = r := Option.some.inj hr
    obtain ⟨l1, l2, hdec, hpre, hpost⟩ := selectOptimal_spec _ _ hsel
    constructor
    · intro q hq
      obtain ⟨row, hrowmem, hqeq⟩ := List.mem_map.mp hq
      rw [← hqeq, ← hr']
      rw [hdec] at hrowmem
      rcases List.mem_append.mp hrowmem with hy | hy
      · exact le_of_lt (hpre row hy)
      · rcases List.mem_cons.mp hy with hy | hy
        · rw [hy]
        · exact hpost row hy
    · rw [rowsAsPairs, hdec, List.map_append, List.map_cons, hp', hr']
      refine find?_first _ _ _ _ ?_ (by simp)
      intro y hy
      obtain ⟨row, hrowmem, hqeq⟩ := List.mem_map.mp hy
      have : row.production_rate < r := hr' ▸ hpre row hrowmem
      rw [← hqeq]
      exact decide_eq_false (not_le.mpr this)

/-- Witness for the amended C1: with an optimal baseline of production rate
1e-9, every point's rate is capped at 1e-8 and the first row with the
maximal rate 1e-8 is the one at -0.8 V. -/
theorem sweep_selects_first_max_witness :
    (rowsAsPairs baselineTiny "octanoic_acid").find?
        (fun q => decide ((1e-8 : ℝ) ≤ q.2)) = some (-0.8, 1e-8) :=
  (sweep_selects_first_max baselineTiny "octanoic_acid" (-0.8) 1e-8
    optimize_tiny_proj.1 optimize_tiny_proj.2).2

/-- Counterexample to C1 as stated: with an optimal baseline of production
rate 1e-9 every sweep point succeeds and the `r*10` cap binds everywhere,
so all 13 potentials tie on the maximum production rate 1e-8; the sweep
returns -0.8 V although the successfully evaluated point (-0.2, 1e-8)
also attains the maximum and has the strictly smaller magnitude, so the
tie is NOT broken toward the lowest-magnitude potential. -/
theorem sweep_tie_not_lowest_magnitude :
    bestPotential? (optimize_applied_potential baselineTiny "octanoic_acid") =
      some (-0.8) ∧
    bestRate? (optimize_applied_potential baselineTiny "octanoic_acid") =
      some 1e-8 ∧
    ((-0.2 : ℝ), (1e-8 : ℝ)) ∈ rowsAsPairs baselineTiny "octanoic_acid" ∧
    |(-0.2 : ℝ)| < |(-0.8 : ℝ)| := by
  refine ⟨optimize_tiny_proj.1, optimize_tiny_proj.2, ?_, ?_⟩
  · obtain ⟨hb1, hb2⟩ := sweep_eta_bounds (-0.2) (by norm_num [sweepPotentials])
    obtain ⟨row, h1, h2, h3⟩ := sweepRow?_tiny (-0.2) hb1 hb2
    refine List.mem_map.mpr ⟨row, ?_, by rw [h2, h3]⟩
    exact List.mem_filterMap.mpr ⟨-0.2, by norm_num [sweepPotentials], h1⟩
  · rw [abs_of_neg (by norm_num : (-0.2 : ℝ) < 0),
      abs_of_neg (by norm_num : (-0.8 : ℝ) < 0)]
    norm_num

/-- C6 (amended): a sweep in which every point fails yields the error
dictionary return value of line 287 — not a raised exception, and in
particular not a `NoFeasiblePotentialError`, which does not exist in the
code — while a single successful point suffices for the sweep to return
the optimal-conditions dictionary, so individual failures are isolated. -/
theorem sweep_error_dict_semantics (b : BaselineResult) (fa : String) :
    (collectRows b fa = [] →
      optimize_applied_potential b fa = .error "No valid results obtained") ∧
    (∀ row ∈ collectRows b fa, isSuccess (optimize_applied_potential b fa) = true) := by
  constructor
  · intro h
    unfold optimize_applied_potential
    rw [h]
    rfl
  · intro row hrow
    cases hsel : selectOptimal (collectRows b fa) with
    | none =>
      rw [selectOptimal_eq_none hsel] at hrow
      exact absurd hrow (by simp)
    | some best =>
      unfold optimize_applied_potential
      rw [hsel]
      rfl

/-- Witness for the amended C6: a non-optimal baseline makes every point
fail and produces the error dictionary; the tiny-rate optimal baseline
keeps at least one successful point and the sweep succeeds. -/
theorem sweep_error_dict_semantics_witness :
    optimize_applied_potential baselineFailed "octanoic_acid" =
      .error "No valid results obtained" ∧
    isSuccess (optimize_applied_potential baselineTiny "octanoic_acid") = true := by
  constructor
  · exact (sweep_error_dict_semantics baselineFailed "octanoic_acid").1
      collectRows_failed
  · obtain ⟨row, rest, hcons, -, -⟩ := collectRows_tiny_cons
    exact (sweep_error_dict_semantics baselineTiny "octanoic_acid").2 row
      (by rw [hcons]; exact List.mem_cons_self _ _)

/-- Counterexample to C6 as stated: when every sweep point fails the code
returns the dictionary `{'error': 'No valid results obtained'}` as an
ordinary value; no `NoFeasiblePotentialError` (or any exception) is raised,
and no such exception class exists anywhere in the repository. -/
theorem sweep_all_fail_returns_error_value :
    optimize_applied_potential baselineFailed "octanoic_acid" =
      .error "No valid results obtained" := by
  unfold optimize_applied_potential
  rw [collectRows_failed]
  rfl

/-! ## FBA / cell-free result derivation (src/fba_optimizer.py,
src/cell_free_simulator.py)

The LP solve itself is the external Metabolic Solver collaborator of the
spec, so the embedded functions take the solver's raw solution — status,
objective value, flux assignment — as a parameter and reproduce the
engine's result-dictionary derivation.  Numeric values are rationals. -/

/-- Raw solver output: `solution.status`, `solution.objective_value` and
the flux mapping accessed through `solution.fluxes.get(key, 0)`. -/
structure Solution where
  status : String
  objective_value : ℚ
  fluxes : List (String × ℚ)

/-- Python `solution.fluxes.get(key, 0)`: dictionary lookup defaulting to 0. -/
def getFlux (fluxes : List (String × ℚ)) (key : String) : ℚ :=
  match fluxes.find? (fun p => p.1 = key) with
  | some p => p.2
  | none => 0

/-- The shared fatty-acid product map of both classes (identical literals at
fba_optimizer.py lines 31–38 and cell_free_simulator.py lines 26–33). -/
def fatty_acid_map : List (String × String) :=
  [("butanoic_acid", "btcoa_c"), ("hexanoic_acid", "hxcoa_c"),
   ("octanoic_acid", "occoa_c"), ("decanoic_acid", "dcacoa_c"),
   ("dodecanoic_acid", "ddcacoa_c"), ("tetradecanoic_acid", "tdcoa_c")]

/-- The results dictionary of `optimize_fatty_acid_production`
(lines 146–176), restricted to its numeric payload. -/
inductive FBAResult where
  | ok (fatty_acid : String)
      (production_rate growth_rate glucose_uptake oxygen_uptake
        yield_mol_per_mol_glucose : ℚ) (status : String)
  | failed (fatty_acid status : String)

/-- `optimize_fatty_acid_production` given the solver solution: raises
`ValueError` for an unsupported fatty acid, otherwise derives the result
dictionary; the yield guard (lines 158–162) divides only when the glucose
uptake is strictly positive. -/
def optimize_fatty_acid_production (sol : Solution) (fatty_acid_name : String) :
    Except String FBAResult :=
  if fatty_acid_name ∉ fatty_acid_map.map Prod.fst then
    .error "ValueError: fatty acid not supported"
  else if sol.status = "optimal" then
    let production_rate := sol.objective_value
    let growth_rate := getFlux sol.fluxes "BIOMASS_Ec_iML1515_core_75p37M"
    let glucose_uptake := |getFlux sol.fluxes "EX_glc__D_e"|
    let oxygen_uptake := |getFlux sol.fluxes "EX_o2_e"|
    .ok (.ok fatty_acid_name production_rate growth_rate glucose_uptake
      oxygen_uptake
      (if 0 < glucose_uptake then production_rate / glucose_uptake else 0)
      sol.status)
  else .ok (.failed fatty_acid_name sol.status)

/-- First three characters of the substrate name, Python `substrate[0:3]`,
computed on the character list so it evaluates by `decide`. -/
def strPrefix3 (s : String) : String := ⟨s.data.take 3⟩

/-- The results dictionary of `optimize_cell_free_production`
(lines 180–218), numeric payload only; `growth_rate` is hard-coded 0. -/
inductive CFResult where
  | ok (fatty_acid substrate : String)
      (substrate_uptake production_rate growth_rate substrate_uptake_actual
        atp_consumption yield_mol_per_mol_substrate specific_productivity : ℚ)
      (status : String)
  | failed (fatty_acid substrate status : String)

/-- `optimize_cell_free_production` given the solver solution.  The actual
substrate uptake reads the flux key `EX_<substrate[0:3]>_e` (line 188) and
the yield guard (lines 194–198) divides only when it is strictly positive. -/
def optimize_cell_free_production (sol : Solution)
    (fatty_acid_name substrate : String) (substrate_uptake : ℚ) :
    Except String CFResult :=
  if fatty_acid_name ∉ fatty_acid_map.map Prod.fst then
    .error "ValueError: fatty acid not supported"
  else if sol.status = "optimal" then
    let production_rate := sol.objective_value
    let substrate_uptake_actual :=
      |getFlux sol.fluxes ("EX_" ++ strPrefix3 substrate ++ "_e")|
    let atp_consumption := |getFlux sol.fluxes "ATPM"|
    .ok (.ok fatty_acid_name substrate substrate_uptake production_rate 0
      substrate_uptake_actual atp_consumption
      (if 0 < substrate_uptake_actual then
        production_rate / substrate_uptake_actual else 0)
      production_rate sol.status)
  else .ok (.failed fatty_acid_name substrate sol.status)

/-- The `yield_mol_per_mol_glucose` field of a successful FBA result. -/
def fbaYield? : Except String FBAResult → Option ℚ
  | .ok (.ok _ _ _ _ _ y _) => some y
  | _ => none

/-- The `yield_mol_per_mol_substrate` field of a successful cell-free result. -/
def cfYield? : Except String CFResult → Option ℚ
  | .ok (.ok _ _ _ _ _ _ _ y _ _) => some y
  | _ => none

/-- C4: in both engines the derived yield field is always defined on an
optimal result — the quotient objective/uptake when the actual uptake is
strictly positive and 0 otherwise — so a zero uptake yields 0 for any
objective value and division by zero never occurs. -/
theorem yield_guard (sol : Solution) (fa substrate : String) (uptake : ℚ)
    (hs : sol.status = "optimal") (hfa : fa ∈ fatty_acid_map.map Prod.fst) :
    (fbaYield? (optimize_fatty_acid_production sol fa) =
      some (if 0 < |getFlux sol.fluxes "EX_glc__D_e"| then
        sol.objective_value / |getFlux sol.fluxes "EX_glc__D_e"| else 0)) ∧
    (|getFlux sol.fluxes "EX_glc__D_e"| = 0 →
      fbaYield? (optimize_fatty_acid_production sol fa) = some 0) ∧
    (cfYield? (optimize_cell_free_production sol fa substrate uptake) =
      some (if 0 < |getFlux sol.fluxes ("EX_" ++ strPrefix3 substrate ++ "_e")| then
        sol.objective_value /
          |getFlux sol.fluxes ("EX_" ++ strPrefix3 substrate ++ "_e")| else 0)) ∧
    (|getFlux sol.fluxes ("EX_" ++ strPrefix3 substrate ++ "_e")| = 0 →
      cfYield? (optimize_cell_free_production sol fa substrate uptake) = some 0) := by
  have hmem : ¬ fa ∉ fatty_acid_map.map Prod.fst := not_not_intro hfa
  unfold optimize_fatty_acid_production optimize_cell_free_production
  rw [if_neg hmem, if_neg hmem, if_pos hs, if_pos hs]
  refine ⟨rfl, ?_, rfl, ?_⟩
  · intro h0
    show some (if 0 < |getFlux sol.fluxes "EX_glc__D_e"| then
      sol.objective_value / |getFlux sol.fluxes "EX_glc__D_e"| else 0) = some 0
    rw [h0, if_neg (lt_irrefl 0)]
  · intro h0
    show some (if 0 < |getFlux sol.fluxes ("EX_" ++ strPrefix3 substrate ++ "_e")|
      then sol.objective_value /
        |getFlux sol.fluxes ("EX_" ++ strPrefix3 substrate ++ "_e")| else 0) = some 0
    rw [h0, if_neg (lt_irrefl 0)]

/-- A concrete optimal solution for the C4 witness: objective 3, zero
glucose exchange flux, glucose substrate flux 2. -/
def solYield : Solution :=
  ⟨"optimal", 3, [("EX_glc__D_e", 0), ("EX_glu_e", 2)]⟩

/-- Witness for C4: with objective 3 the zero glucose uptake still gives
yield 0 in the FBA engine, and the cell-free engine reads `EX_glu_e`
(flux 2) and yields 3/2. -/
theorem yield_guard_witness :
    fbaYield? (optimize_fatty_acid_production solYield "octanoic_acid") = some 0 ∧
    cfYield? (optimize_cell_free_production solYield "octanoic_acid" "glucose" 10) =
      some (3 / 2) := by
  have T := yield_guard solYield "octanoic_acid" "glucose" 10 rfl (by decide)
  refine ⟨T.2.1 (by decide), ?_⟩
  rw [T.2.2.1]
  have hflux : getFlux solYield.fluxes ("EX_" ++ strPrefix3 "glucose" ++ "_e") = 2 := rfl
  rw [hflux]
  norm_num [solYield]

/-! ## `screen_knockouts` (src/fba_optimizer.py lines 195–238)

Each per-candidate optimization is one external solve; the screening logic
is embedded over a solver parameter `solve`, where `solve none` is the
baseline solve and `solve (some ko)` the solve with candidate `ko` knocked
out.  A solve returns `some (production_rate, growth_rate)` when optimal;
`none` models a non-optimal solve, whose result dictionary lacks the
`growth_rate` key so that the row construction raises `KeyError` — caught
and skipped for a candidate (lines 235–236), fatal for the baseline row. -/

/-- One row of the screening table (lines 214–219 / 228–233). -/
structure KORow where
  knockouts : String
  production_rate : ℚ
  growth_rate : ℚ
  improvement : ℚ
deriving DecidableEq

/-- The descending-by-improvement comparison used to model
`sort_values('improvement', ascending=False)`. -/
def koCompare (a b : KORow) : Prop := b.improvement ≤ a.improvement

instance : DecidableRel koCompare :=
  fun a b => inferInstanceAs (Decidable (b.improvement ≤ a.improvement))

instance : IsTotal KORow koCompare :=
  ⟨fun a b => le_total b.improvement a.improvement⟩

instance : IsTrans KORow koCompare :=
  ⟨fun _ _ _ hab hbc => le_trans hbc hab⟩

/-- The candidate rows in submission order (lines 222–236): a candidate
whose solve fails is skipped; otherwise the improvement is
`(rate - baseline) / baseline * 100`, guarded to 0 unless the baseline
rate is strictly positive. -/
def mkCandidateRows (solve : Option String → Option (ℚ × ℚ)) (bp : ℚ)
    (candidates : List String) : List KORow :=
  candidates.filterMap (fun ko =>
    (solve (some ko)).map (fun pg =>
      ⟨ko, pg.1, pg.2, if 0 < bp then (pg.1 - bp) / bp * 100 else 0⟩))

/-- `screen_knockouts` given the solver: baseline row first (improvement
0.0), then the candidate rows, sorted descending by improvement.  numpy's
sort on a frame of this size is insertion sort, so equal keys keep their
input order; a stable descending sort models it.  There is no secondary
sort key. -/
def screen_knockouts (solve : Option String → Option (ℚ × ℚ))
    (candidates : List String) : Except String (List KORow) :=
  match solve none with
  | none => .error "KeyError: growth_rate"
  | some bpg =>
      .ok (List.insertionSort koCompare
        (⟨"none", bpg.1, bpg.2, 0⟩ :: mkCandidateRows solve bpg.1 candidates))

/-- C5 (amended): a successful screen returns the baseline row plus one row
per successfully solved candidate carrying the guarded improvement formula,
ordered descending by `improvement`; ties are NOT broken by candidate id —
the sort has no secondary key, so tied rows keep their input order. -/
theorem screen_ranking (solve : Option String → Option (ℚ × ℚ))
    (candidates : List String) (bp bg : ℚ) (hb : solve none = some (bp, bg))
    (l : List KORow) (hl : screen_knockouts solve candidates = .ok l) :
    List.Sorted koCompare l ∧
    l.Perm (⟨"none", bp, bg, 0⟩ :: mkCandidateRows solve bp candidates) ∧
    (∀ ko p g, ko ∈ candidates → solve (some ko) = some (p, g) →
      (⟨ko, p, g, if 0 < bp then (p - bp) / bp * 100 else 0⟩ : KORow) ∈ l) := by
  unfold screen_knockouts at hl
  rw [hb] at hl
  have hl' : List.insertionSort koCompare
      (⟨"none", bp, bg, 0⟩ :: mkCandidateRows solve bp candidates) = l :=
    Except.ok.inj hl
  subst hl'
  refine ⟨List.sorted_insertionSort koCompare _, List.perm_insertionSort koCompare _, ?_⟩
  intro ko p g hko hsolve
  rw [List.mem_insertionSort]
  refine List.mem_cons_of_mem _ (List.mem_filterMap.mpr ⟨ko, hko, ?_⟩)
  rw [hsolve]
  rfl

/-- A solver for the C5 scenarios: baseline rate 4 and growth 1; every
knockout candidate solves to rate 6 and growth 2 (improvement +50%). -/
def solveTie : Option String → Option (ℚ × ℚ) := fun o =>
  match o with
  | none => some (4, 1)
  | some _ => some (6, 2)

/-- Witness for the amended C5 with a single candidate. -/
theorem screen_ranking_witness :
    List.Sorted koCompare
      [(⟨"ACALD", 6, 2, 50⟩ : KORow), ⟨"none", 4, 1, 0⟩] ∧
    ([(⟨"ACALD", 6, 2, 50⟩ : KORow), ⟨"none", 4, 1, 0⟩] : List KORow).Perm
      (⟨"none", 4, 1, 0⟩ :: mkCandidateRows solveTie 4 ["ACALD"]) := by
  have hscreen : screen_knockouts solveTie ["ACALD"] =
      .ok [⟨"ACALD", 6, 2, 50⟩, ⟨"none", 4, 1, 0⟩] := by
    norm_num [screen_knockouts, mkCandidateRows, solveTie, List.insertionSort,
      List.orderedInsert, koCompare]
  have T := screen_ranking solveTie ["ACALD"] 4 1 rfl
    [⟨"ACALD", 6, 2, 50⟩, ⟨"none", 4, 1, 0⟩] hscreen
  exact ⟨T.1, T.2.1⟩

/-- Counterexample to C5 as stated: two candidates tie at +50%; the output
keeps them in submission order, `zzz_ko` before `aaa_ko`, even though
`aaa_ko` precedes `zzz_ko` in candidate-id order — so ties are not broken
by candidate id. -/
theorem screen_tie_not_by_id :
    screen_knockouts solveTie ["zzz_ko", "aaa_ko"] =
      .ok [⟨"zzz_ko", 6, 2, 50⟩, ⟨"aaa_ko", 6, 2, 50⟩, ⟨"none", 4, 1, 0⟩] ∧
    "aaa_ko" < "zzz_ko" := by
  constructor
  · norm_num [screen_knockouts, mkCandidateRows, solveTie, List.insertionSort,
      List.orderedInsert, koCompare]
  · rw [String.lt_iff_toList_lt]
    exact List.Lex.rel (by decide)

/-! ## Demand-reaction addition (src/fba_optimizer.py lines 59–84,
src/cell_free_simulator.py lines 75–94)

The cobra model is embedded as its reaction list (with ids, names, bounds
and stoichiometry), its metabolite ids and the `demand_reactions`
bookkeeping dict.  `get_by_id` raising `KeyError` for a missing metabolite
is the membership test; `demand_id not in model.reactions` is the id
membership test. -/

/-- A reaction as built by `add_demand_reactions`. -/
structure Reaction where
  id : String
  name : String
  lower_bound : ℚ
  upper_bound : ℚ
  metabolites : List (String × ℚ)
deriving DecidableEq

/-- The slice of a cobra model the demand-addition code touches. -/
structure MetModel where
  reactions : List Reaction
  metabolites : List String
  demand_reactions : List (String × String)
deriving DecidableEq

/-- The reaction ids of the model. -/
def reactionIds (m : MetModel) : List String := m.reactions.map Reaction.id

/-- How many reactions of the model carry the id `d`. -/
def countId (m : MetModel) (d : String) : ℕ := (reactionIds m).count d

/-- One iteration of `WorkingFBAOptimizer.add_demand_reactions` (lines
63–84): skip if the metabolite is missing (`KeyError` caught); if the
demand id already exists only record it in `demand_reactions`; otherwise
append the fresh demand reaction with bounds (0, 1000) and stoichiometry
`{met: -1}` and record it. -/
def addDemandFBA (m : MetModel) (entry : String × String) : MetModel :=
  if entry.2 ∈ m.metabolites then
    if "DM_" ++ entry.2 ∈ reactionIds m then
      { m with demand_reactions :=
          m.demand_reactions ++ [(entry.1, "DM_" ++ entry.2)] }
    else
      { m with
        reactions := m.reactions ++
          [⟨"DM_" ++ entry.2, entry.1 ++ " demand", 0, 1000, [(entry.2, -1)]⟩],
        demand_reactions := m.demand_reactions ++ [(entry.1, "DM_" ++ entry.2)] }
  else m

/-- `WorkingFBAOptimizer.add_demand_reactions`: fold over the product map. -/
def add_demand_reactions (m : MetModel) : MetModel :=
  fatty_acid_map.foldl addDemandFBA m

/-- One iteration of `CellFreeSimulator._add_demand_reactions` (lines
77–94): identical except that an existing demand id is left fully
untouched (nothing is recorded in the `demand_reactions` dict). -/
def addDemandCF (m : MetModel) (entry : String × String) : MetModel :=
  if entry.2 ∈ m.metabolites then
    if "DM_" ++ entry.2 ∈ reactionIds m then m
    else
      { m with
        reactions := m.reactions ++
          [⟨"DM_" ++ entry.2, entry.1 ++ " demand (cell-free)", 0, 1000,
            [(entry.2, -1)]⟩],
        demand_reactions := m.demand_reactions ++ [(entry.1, "DM_" ++ entry.2)] }
  else m

/-- `CellFreeSimulator._add_demand_reactions`: fold over the product map. -/
def cf_add_demand_reactions (m : MetModel) : MetModel :=
  fatty_acid_map.foldl addDemandCF m

lemma dm_append_inj {a b : String} (h : "DM_" ++ a = "DM_" ++ b) : a = b := by
  have h2 := congrArg String.data h
  rw [String.data_append, String.data_append] at h2
  exact String.ext (List.append_cancel_left h2)

lemma countId_append (m : MetModel) (rxn : Reaction) (d : String) :
    ((m.reactions ++ [rxn]).map Reaction.id).count d =
      countId m d + (if rxn.id = d then 1 else 0) := by
  by_cases h : rxn.id = d <;>
    simp [countId, reactionIds, List.count_append, List.count_cons, h]

lemma addDemandFBA_mets (m : MetModel) (e : String × String) :
    (addDemandFBA m e).metabolites = m.metabolites := by
  unfold addDemandFBA
  split
  · split <;> rfl
  · rfl

lemma addDemandCF_mets (m : MetModel) (e : String × String) :
    (addDemandCF m e).metabolites = m.metabolites := by
  unfold addDemandCF
  split
  · split <;> rfl
  · rfl

lemma addDemandFBA_count_skip (m : MetModel) (e : String × String) (d : String)
    (hd : d ≠ "DM_" ++ e.2) : countId (addDemandFBA m e) d = countId m d := by
  unfold addDemandFBA
  split
  · split
    · rfl
    · show ((m.reactions ++ [_]).map Reaction.id).count d = countId m d
      rw [countId_append, if_neg (fun hc => hd hc.symm), Nat.add_zero]
  · rfl

lemma addDemandCF_count_skip (m : MetModel) (e : String × String) (d : String)
    (hd : d ≠ "DM_" ++ e.2) : countId (addDemandCF m e) d = countId m d := by
  unfold addDemandCF
  split
  · split
    · rfl
    · show ((m.reactions ++ [_]).map Reaction.id).count d = countId m d
      rw [countId_append, if_neg (fun hc => hd hc.symm), Nat.add_zero]
  · rfl

lemma addDemandFBA_count_present (m : MetModel) (e : String × String)
    (hpres : countId m ("DM_" ++ e.2) ≠ 0) :
    countId (addDemandFBA m e) ("DM_" ++ e.2) = countId m ("DM_" ++ e.2) := by
  have hin : ("DM_" ++ e.2) ∈ reactionIds m :=
    List.count_pos_iff.mp (Nat.pos_of_ne_zero hpres)
  unfold addDemandFBA
  by_cases hmet : e.2 ∈ m.metabolites
  · rw [if_pos hmet, if_pos hin]
    rfl
  · rw [if_neg hmet]

lemma addDemandCF_count_present (m : MetModel) (e : String × String)
    (hpres : countId m ("DM_" ++ e.2) ≠ 0) :
    countId (addDemandCF m e) ("DM_" ++ e.2) = countId m ("DM_" ++ e.2) := by
  have hin : ("DM_" ++ e.2) ∈ reactionIds m :=
    List.count_pos_iff.mp (Nat.pos_of_ne_zero hpres)
  unfold addDemandCF
  by_cases hmet : e.2 ∈ m.metabolites
  · rw [if_pos hmet, if_pos hin]
  · rw [if_neg hmet]

lemma addDemandFBA_count_fresh (m : MetModel) (e : String × String)
    (hmet : e.2 ∈ m.metabolites) (hfresh : countId m ("DM_" ++ e.2) = 0) :
    countId (addDemandFBA m e) ("DM_" ++ e.2) = 1 := by
  have hnotin : ("DM_" ++ e.2) ∉ reactionIds m := by
    intro hc
    exact absurd hfresh (Nat.pos_iff_ne_zero.mp (List.count_pos_iff.mpr hc))
  unfold addDemandFBA
  rw [if_pos hmet, if_neg hnotin]
  show ((m.reactions ++ [_]).map Reaction.id).count ("DM_" ++ e.2) = 1
  rw [countId_append, if_pos rfl, hfresh]

lemma addDemandCF_count_fresh (m : MetModel) (e : String × String)
    (hmet : e.2 ∈ m.metabolites) (hfresh : countId m ("DM_" ++ e.2) = 0) :
    countId (addDemandCF m e) ("DM_" ++ e.2) = 1 := by
  have hnotin : ("DM_" ++ e.2) ∉ reactionIds m := by
    intro hc
    exact absurd hfresh (Nat.pos_iff_ne_zero.mp (List.count_pos_iff.mpr hc))
  unfold addDemandCF
  rw [if_pos hmet, if_neg hnotin]
  show ((m.reactions ++ [_]).map Reaction.id).count ("DM_" ++ e.2) = 1
  rw [countId_append, if_pos rfl, hfresh]

/-- Generic fold lemma: once the demand id is present its reaction count is
never changed by further iterations of a step function with the skip and
present properties. -/
lemma foldl_count_stable (f : MetModel → String × String → MetModel)
    (hskip : ∀ m e d, d ≠ "DM_" ++ e.2 → countId (f m e) d = countId m d)
    (hpres : ∀ m e, countId m ("DM_" ++ e.2) ≠ 0 →
      countId (f m e) ("DM_" ++ e.2) = countId m ("DM_" ++ e.2)) :
    ∀ (entries : List (String × String)) (m : MetModel) (mid : String),
      countId m ("DM_" ++ mid) ≠ 0 →
      countId (entries.foldl f m) ("DM_" ++ mid) = countId m ("DM_" ++ mid) := by
  intro entries
  induction entries with
  | nil => intro m mid _; rfl
  | cons e rest ih =>
    intro m mid h
    rw [List.foldl_cons]
    have hstep : countId (f m e) ("DM_" ++ mid) = countId m ("DM_" ++ mid) := by
      by_cases hde : mid = e.2
      · subst hde; exact hpres m e h
      · exact hskip m e _ (fun hc => hde (dm_append_inj hc))
    rw [ih (f m e) mid (by rw [hstep]; exact h), hstep]

/-- Generic fold lemma: running a step function with the four demand-step
properties over entries containing `(name, mid)`, starting from a model
that has the metabolite but no demand reaction yet, yields exactly one
reaction with the demand id. -/
lemma foldl_count_once (f : MetModel → String × String → MetModel)
    (hmets : ∀ m e, (f m e).metabolites = m.metabolites)
    (hskip : ∀ m e d, d ≠ "DM_" ++ e.2 → countId (f m e) d = countId m d)
    (hpres : ∀ m e, countId m ("DM_" ++ e.2) ≠ 0 →
      countId (f m e) ("DM_" ++ e.2) = countId m ("DM_" ++ e.2))
    (hfreshlem : ∀ m e, e.2 ∈ m.metabolites → countId m ("DM_" ++ e.2) = 0 →
      countId (f m e) ("DM_" ++ e.2) = 1) :
    ∀ (entries : List (String × String)) (m : MetModel) (name mid : String),
      (name, mid) ∈ entries → mid ∈ m.metabolites →
      countId m ("DM_" ++ mid) = 0 →
      countId (entries.foldl f m) ("DM_" ++ mid) = 1 := by
  intro entries
  induction entries with
  | nil => intro m name mid h; exact absurd h (by simp)
  | cons e rest ih =>
    intro m name mid hmem hmet hfresh
    rw [List.foldl_cons]
    by_cases he : e.2 = mid
    · have h1 : countId (f m e) ("DM_" ++ mid) = 1 := by
        rw [← he] at hmet hfresh ⊢
        exact hfreshlem m e hmet hfresh
      rcases List.eq_nil_or_concat rest with hrest | -
      · rw [hrest]; exact h1
      · exact (foldl_count_stable f hskip hpres rest (f m e) mid
          (by rw [h1]; exact one_ne_zero)).trans h1
    · have hstep : countId (f m e) ("DM_" ++ mid) = countId m ("DM_" ++ mid) :=
        hskip m e _ (fun hc => he (dm_append_inj hc).symm)
      have hmem' : (name, mid) ∈ rest := by
        rcases List.mem_cons.mp hmem with hc | hc
        · exact absurd (congrArg Prod.snd hc.symm) he
        · exact hc
      exact ih (f m e) name mid hmem' (by rw [hmets]; exact hmet)
        (by rw [hstep]; exact hfresh)

/-- C7: for every entry of the fatty-acid product map, starting from a
model that contains the metabolite but no reaction under the demand id,
one run of demand addition creates exactly one reaction with that id and a
second run adds none — in both the FBA optimizer and the cell-free
simulator variant. -/
theorem demand_addition_idempotent (m : MetModel) (name mid : String)
    (hmem : (name, mid) ∈ fatty_acid_map) (hmet : mid ∈ m.metabolites)
    (hfresh : countId m ("DM_" ++ mid) = 0) :
    (countId (add_demand_reactions m) ("DM_" ++ mid) = 1 ∧
      countId (add_demand_reactions (add_demand_reactions m)) ("DM_" ++ mid) = 1) ∧
    (countId (cf_add_demand_reactions m) ("DM_" ++ mid) = 1 ∧
      countId (cf_add_demand_reactions (cf_add_demand_reactions m)) ("DM_" ++ mid) = 1) := by
  have onceF : countId (add_demand_reactions m) ("DM_" ++ mid) = 1 :=
    foldl_count_once addDemandFBA addDemandFBA_mets addDemandFBA_count_skip
      addDemandFBA_count_present addDemandFBA_count_fresh
      fatty_acid_map m name mid hmem hmet hfresh
  have onceC : countId (cf_add_demand_reactions m) ("DM_" ++ mid) = 1 :=
    foldl_count_once addDemandCF addDemandCF_mets addDemandCF_count_skip
      addDemandCF_count_present addDemandCF_count_fresh
      fatty_acid_map m name mid hmem hmet hfresh
  refine ⟨⟨onceF, ?_⟩, onceC, ?_⟩
  · exact (foldl_count_stable addDemandFBA addDemandFBA_count_skip
      addDemandFBA_count_present fatty_acid_map (add_demand_reactions m) mid
      (by rw [onceF]; exact one_ne_zero)).trans onceF
  · exact (foldl_count_stable addDemandCF addDemandCF_count_skip
      addDemandCF_count_present fatty_acid_map (cf_add_demand_reactions m) mid
      (by rw [onceC]; exact one_ne_zero)).trans onceC

/-- A minimal model holding only the octanoyl-CoA metabolite. -/
def modelOcta : MetModel := ⟨[], ["occoa_c"], []⟩

/-- Witness for C7 on the octanoic-acid entry. -/
theorem demand_addition_idempotent_witness :
    (countId (add_demand_reactions modelOcta) ("DM_" ++ "occoa_c") = 1 ∧
      countId (add_demand_reactions (add_demand_reactions modelOcta))
        ("DM_" ++ "occoa_c") = 1) ∧
    (countId (cf_add_demand_reactions modelOcta) ("DM_" ++ "occoa_c") = 1 ∧
      countId (cf_add_demand_reactions (cf_add_demand_reactions modelOcta))
        ("DM_" ++ "occoa_c") = 1) :=
  demand_addition_idempotent modelOcta "octanoic_acid" "occoa_c"
    (by decide) (by decide) (by decide)
